import Mathlib

/-!
Shallow embedding of the AntiRaid cog (src/antiraid.py).

Modelling conventions:
* Guild, user, role and channel ids are `Nat`.
* Timestamps (`message.created_at.timestamp()`) and the configured limits
  (Python `int` arguments of the config commands) are `Int`; the detection
  logic only uses ordered subtraction and comparison, which `Int` models
  faithfully.
* `self.message_history`, a `defaultdict(guild -> defaultdict(user -> list))`,
  is modelled as the total function `Hist := Nat -> Nat -> List Int` that
  returns `[]` for absent keys (the observable behaviour of the defaultdict).
* The external Discord calls performed by `_punish_user` (purge, timeout,
  kick, ban, channel send, log send) are modelled as an emitted `Effect`
  list; whether each call raises `discord.Forbidden` / a generic `Exception`
  is an input oracle `Env`.  A `print(...)` diagnostic is the
  `Effect.diagnostic` constructor.  The Python function always returns
  `None`; the `Outcome` value records which return path was taken (no
  exception escapes except the `Outcome.crashed` path, which models the
  `NameError` on `action_verbed` when `settings["action"]` is not one of
  mute/kick/ban).
-/

namespace AntiRaid

/-- Per-guild settings dictionary (`default_guild` keys, antiraid.py lines 15-27). -/
structure GuildSettings where
  enabled : Bool
  spam_limit : Int
  spam_interval : Int
  mention_limit : Int
  action : String
  mute_duration : Int
  whitelist_roles : List Nat
  log_channel : Option Nat
  ping_role : Option Nat
  ping_message : String
deriving DecidableEq, Repr

/-- The registered defaults (antiraid.py lines 15-27). -/
def default_guild : GuildSettings :=
  { enabled := false
    spam_limit := 7
    spam_interval := 5
    mention_limit := 5
    action := "mute"
    mute_duration := 600
    whitelist_roles := []
    log_channel := none
    ping_role := none
    ping_message := "Raider detected! Action taken." }

/-- The fields of a `discord.Message` (plus author/bot member data) that
`on_message` and `_punish_user` read.  `guildId = none` models a direct
message (`message.guild` is `None`).  `authorTopRole` / `botTopRole` model
the positions of `member.top_role` and `guild.me.top_role` in the guild's
role hierarchy. -/
structure Message where
  guildId : Option Nat
  authorId : Nat
  authorIsBot : Bool
  authorRoles : List Nat
  authorIsAdmin : Bool
  mentions : Nat
  role_mentions : Nat
  mention_everyone : Bool
  timestamp : Int
  authorTopRole : Int
  botTopRole : Int
deriving DecidableEq, Repr

/-- Sliding-window state: `message_history[guild][user]` (antiraid.py line 30). -/
def Hist : Type := Nat → Nat → List Int

/-- The fresh `defaultdict` state: every key maps to the empty list. -/
def emptyHist : Hist := fun _ _ => []

/-- Write one (guild, user) entry of the history map. -/
def update (h : Hist) (g u : Nat) (w : List Int) : Hist :=
  fun g' u' => if g' = g then (if u' = u then w else h g' u') else h g' u'

/-- Exception kinds distinguished by `_punish_user`'s two except clauses:
`discord.Forbidden` versus any other `Exception`. -/
inductive ExcKind
  | forbidden
  | otherExc
deriving DecidableEq, Repr

/-- Oracle for the external Discord calls made during one `_punish_user`
run: which of them raise, and whether `guild.get_role` / `guild.get_channel`
resolve the configured ids. -/
structure Env where
  purgeExc : Option ExcKind
  punishExc : Option ExcKind
  alertExc : Bool
  logExc : Bool
  pingRoleResolvable : Bool
  logChannelResolvable : Bool
deriving DecidableEq, Repr

/-- Observable side effects of `_punish_user`.  `diagnostic` is a local
`print(...)`; the others are external Discord actions. -/
inductive Effect
  | purge
  | timeout (seconds : Int)
  | kick
  | ban
  | alert (content : String)
  | log (reason : String)
  | diagnostic (msg : String)
deriving DecidableEq, Repr

/-- Which `return` path of `_punish_user` was taken (the Python function
always returns `None`; no exception escapes it except on the `crashed`
path, the unbound `action_verbed` NameError for an invalid action). -/
inductive Outcome
  | hierarchyBlocked
  | forbidden
  | errored
  | crashed
  | completed
deriving DecidableEq, Repr

/-- Diagnostic printed by the matching except clause (lines 63-68). -/
def failDiag : ExcKind → Effect
  | .forbidden => .diagnostic "Missing permissions to punish"
  | .otherExc => .diagnostic "Error"

/-- Return path taken by the matching except clause (lines 63-68). -/
def failOutcome : ExcKind → Outcome
  | .forbidden => .forbidden
  | .otherExc => .errored

/-- Embedding of `AntiRaid._punish_user` (antiraid.py lines 32-98).
Control flow is translated clause by clause: the hierarchy guard (lines
39-40) returns before any effect; the purge (line 48) and the punishment
(lines 50-61) share one try block, so an exception from either jumps to
the except clauses (lines 63-68) which print and return; the alert send
(lines 79-82) swallows every failure; the log send (lines 95-98) prints on
failure.  Alert text is modelled structurally (role-mention rendering
elided). -/
def punish_user (env : Env) (s : GuildSettings) (m : Message) (reason : String) :
    List Effect × Outcome :=
  if m.botTopRole ≤ m.authorTopRole then
    ([], .hierarchyBlocked)
  else
    match env.purgeExc with
    | some k => ([failDiag k], failOutcome k)
    | none =>
      let punished : Option (Effect × String) :=
        if s.action = "mute" then some (.timeout s.mute_duration, "Muted")
        else if s.action = "kick" then some (.kick, "Kicked")
        else if s.action = "ban" then some (.ban, "Banned")
        else none
      match punished with
      | none => ([.purge], .crashed)
      | some (eff, verbed) =>
        match env.punishExc with
        | some k => ([.purge, failDiag k], failOutcome k)
        | none =>
          let base := "AntiRaid: " ++ verbed ++ " member for spamming/raiding."
          let alert_content :=
            match s.ping_role with
            | some _ =>
              if env.pingRoleResolvable then s.ping_message ++ " " ++ base else base
            | none => base
          let alertEffs := if env.alertExc then [] else [Effect.alert alert_content]
          let logEffs :=
            match s.log_channel with
            | some _ =>
              if env.logChannelResolvable then
                if env.logExc then [Effect.diagnostic "Failed to send log"]
                else [Effect.log reason]
              else []
            | none => []
          ([Effect.purge, eff] ++ alertEffs ++ logEffs, .completed)

/-- The mention tally of `on_message` (antiraid.py lines 116-118):
`len(message.mentions) + len(message.role_mentions)`, plus one when
`message.mention_everyone`. -/
def mention_count (m : Message) : Nat :=
  m.mentions + m.role_mentions + (if m.mention_everyone then 1 else 0)

/-- The exemption conditions of `on_message` in source order (lines
102-113): direct message, bot author, detection disabled, whitelisted
role, administrator. -/
def isExempt (s : GuildSettings) (m : Message) : Bool :=
  m.guildId.isNone || m.authorIsBot || !s.enabled
    || m.authorRoles.any (fun rid => s.whitelist_roles.contains rid)
    || m.authorIsAdmin

/-- Reason string passed to `_punish_user` on a mention violation (line 121). -/
def mentionReason (n : Nat) : String :=
  "AntiRaid: Exceeded mention limit (" ++ toString n ++ ")"

/-- Reason string passed to `_punish_user` on a velocity violation (line 137). -/
def velocityReason : String := "AntiRaid: Exceeded message velocity limit"

/-- Kind of a detected violation: which `_punish_user` call site fired. -/
inductive IncidentKind
  | massMention
  | velocity
deriving DecidableEq, Repr

/-- A detected violation: the call of `_punish_user` with its reason. -/
structure Incident where
  kind : IncidentKind
  reason : String
deriving DecidableEq, Repr

/-- Result of processing one message: which violation (if any) was detected,
the side effects and return path of the `_punish_user` call it dispatched,
and the updated history map. -/
structure StepResult where
  incident : Option Incident
  effects : List Effect
  outcome : Option Outcome
  hist : Hist

/-- Embedding of the `on_message` listener (antiraid.py lines 100-137).
Lines 102-113 are the early returns (exemptions); lines 115-122 the mass
mention check, which returns without touching `message_history`; lines
124-137 the velocity check: append the timestamp, prune to entries
strictly newer than `now - spam_interval`, store the pruned list, and on
`len >= spam_limit` clear the entry and punish. -/
def on_message (env : Env) (s : GuildSettings) (m : Message) (h : Hist) : StepResult :=
  match m.guildId with
  | none => ⟨none, [], none, h⟩
  | some g =>
    if m.authorIsBot || !s.enabled
        || m.authorRoles.any (fun rid => s.whitelist_roles.contains rid)
        || m.authorIsAdmin then
      ⟨none, [], none, h⟩
    else
      let mc := mention_count m
      if s.mention_limit ≤ (mc : Int) then
        let p := punish_user env s m (mentionReason mc)
        ⟨some ⟨.massMention, mentionReason mc⟩, p.1, some p.2, h⟩
      else
        let now := m.timestamp
        let user_history := h g m.authorId ++ [now]
        let cutoff := now - s.spam_interval
        let pruned := user_history.filter (fun t => cutoff < t)
        let h1 := update h g m.authorId pruned
        if s.spam_limit ≤ (pruned.length : Int) then
          let h2 := update h1 g m.authorId []
          let p := punish_user env s m velocityReason
          ⟨some ⟨.velocity, velocityReason⟩, p.1, some p.2, h2⟩
        else
          ⟨none, [], none, h1⟩

/-- Process a list of messages in order, threading the history map and
collecting the detected incidents. -/
def run (env : Env) (s : GuildSettings) : List Message → Hist → List Incident × Hist
  | [], h => ([], h)
  | m :: rest, h =>
    let r := on_message env s m h
    let p := run env s rest r.hist
    (r.incident.toList ++ p.1, p.2)

/-- Embedding of the `antiraid spamlimit` command (lines 164-169): stores
both arguments unconditionally. -/
def ar_spamlimit (s : GuildSettings) (messages seconds : Int) : GuildSettings :=
  { s with spam_limit := messages, spam_interval := seconds }

/-- Embedding of the `antiraid mentionlimit` command (lines 171-175):
stores the argument unconditionally. -/
def ar_mentionlimit (s : GuildSettings) (limit : Int) : GuildSettings :=
  { s with mention_limit := limit }

/-- Python `str.lower()` for the action keyword, modelled on the character
list (the ASCII lowering relevant here; Lean's own `String.toLower` is not
definitionally reducible). -/
def lower (s : String) : String := ⟨s.data.map Char.toLower⟩

/-- Embedding of the `antiraid action` command (lines 156-162): stores the
lower-cased action only when it is one of mute, kick, ban. -/
def ar_action (s : GuildSettings) (action : String) : GuildSettings :=
  if lower action = "mute" ∨ lower action = "kick" ∨ lower action = "ban" then
    { s with action := lower action }
  else s

/-- A plain message for the velocity scenarios: no mentions, no roles,
ordinary member, author below the bot in the hierarchy. -/
def mkMsg (g u : Nat) (t : Int) : Message :=
  { guildId := some g
    authorId := u
    authorIsBot := false
    authorRoles := []
    authorIsAdmin := false
    mentions := 0
    role_mentions := 0
    mention_everyone := false
    timestamp := t
    authorTopRole := 0
    botTopRole := 1 }

/-- A message carrying `n` user mentions, otherwise like `mkMsg`. -/
def mkMentionMsg (g u : Nat) (t : Int) (n : Nat) : Message :=
  { mkMsg g u t with mentions := n }

/-- A benign external environment: no call raises, ids resolve. -/
def env0 : Env :=
  { purgeExc := none
    punishExc := none
    alertExc := false
    logExc := false
    pingRoleResolvable := true
    logChannelResolvable := true }

/-- An environment in which the bulk-delete (`message.channel.purge`) raises
a generic `Exception`. -/
def envPurgeFail : Env := { env0 with purgeExc := some .otherExc }

/-- An environment in which the punishment call raises `discord.Forbidden`. -/
def envPunishForbidden : Env := { env0 with punishExc := some .forbidden }

/-- A message whose author's top role equals the bot's top role. -/
def mkBossMsg (g u : Nat) (t : Int) : Message :=
  { mkMsg g u t with authorTopRole := 5, botTopRole := 5 }

/-- A bot-authored message (exempt). -/
def botMsg : Message := { mkMsg 1 2 0 with authorIsBot := true }

/-- Defaults with detection enabled. -/
def sEnabled : GuildSettings := { default_guild with enabled := true }

/-- Enabled settings with `spam_limit = 1`. -/
def sLimit1 : GuildSettings := { sEnabled with spam_limit := 1 }

/-- Enabled settings with `spam_limit = 2`. -/
def sLimit2 : GuildSettings := { sEnabled with spam_limit := 2 }

/-- Enabled settings with `spam_interval = 0`. -/
def sInterval0 : GuildSettings := { sEnabled with spam_interval := 0 }

/-- Enabled settings with `spam_limit = 0`. -/
def sLimit0 : GuildSettings := { sEnabled with spam_limit := 0 }

/-- Enabled settings with `mention_limit = 0`. -/
def sMention0 : GuildSettings := { sEnabled with mention_limit := 0 }

/- ------------------------------------------------------------------ -/
/- Helper lemmas about the history map and the single-step behaviour. -/
/- ------------------------------------------------------------------ -/

theorem update_get (h : Hist) (g u : Nat) (w : List Int) : update h g u w g u = w := by
  simp [update]

theorem update_update (h : Hist) (g u : Nat) (w1 w2 : List Int) :
    update (update h g u w1) g u w2 = update h g u w2 := by
  funext g' u'
  by_cases hg : g' = g <;> by_cases hu : u' = u <;> simp [update, hg, hu]

theorem update_self (h : Hist) (g u : Nat) : update h g u (h g u) = h := by
  funext g' u'
  by_cases hg : g' = g <;> by_cases hu : u' = u <;> simp [update, hg, hu]

/-- Unfolding of `on_message` on the exempt path. -/
theorem on_message_exempt (env : Env) (s : GuildSettings) (m : Message) (h : Hist)
    (hx : isExempt s m = true) :
    on_message env s m h = ⟨none, [], none, h⟩ := by
  unfold isExempt at hx
  cases hOpt : m.guildId with
  | none => simp [on_message, hOpt]
  | some g =>
    rw [hOpt] at hx
    simp at hx
    simp [on_message, hOpt, hx]

/-- Unfolding of `on_message` on the mass-mention path. -/
theorem on_message_mention (env : Env) (s : GuildSettings) (m : Message) (h : Hist)
    (g : Nat) (hg : m.guildId = some g)
    (hcond : ¬ ((m.authorIsBot || !s.enabled
      || m.authorRoles.any (fun rid => s.whitelist_roles.contains rid)
      || m.authorIsAdmin) = true))
    (hmc : s.mention_limit ≤ (mention_count m : Int)) :
    on_message env s m h =
      ⟨some ⟨.massMention, mentionReason (mention_count m)⟩,
       (punish_user env s m (mentionReason (mention_count m))).1,
       some (punish_user env s m (mentionReason (mention_count m))).2, h⟩ := by
  simp only [on_message, hg]
  rw [if_neg hcond, if_pos hmc]

/-- Unfolding of `on_message` on the velocity path: guild message, no
exemption, mention count below the limit. -/
theorem on_message_velocity (env : Env) (s : GuildSettings) (m : Message) (h : Hist)
    (g : Nat) (hg : m.guildId = some g)
    (hcond : ¬ ((m.authorIsBot || !s.enabled
      || m.authorRoles.any (fun rid => s.whitelist_roles.contains rid)
      || m.authorIsAdmin) = true))
    (hmc : (mention_count m : Int) < s.mention_limit) :
    on_message env s m h =
      (if s.spam_limit ≤ (((h g m.authorId ++ [m.timestamp]).filter
            (fun t => m.timestamp - s.spam_interval < t)).length : Int) then
         ⟨some ⟨.velocity, velocityReason⟩, (punish_user env s m velocityReason).1,
          some (punish_user env s m velocityReason).2,
          update (update h g m.authorId
            ((h g m.authorId ++ [m.timestamp]).filter
              (fun t => m.timestamp - s.spam_interval < t))) g m.authorId []⟩
       else ⟨none, [], none, update h g m.authorId
          ((h g m.authorId ++ [m.timestamp]).filter
            (fun t => m.timestamp - s.spam_interval < t))⟩) := by
  simp only [on_message, hg]
  rw [if_neg hcond, if_neg (not_le.mpr hmc)]

/-- The four non-DM exemption flags being clear gives the combined guard
condition of `on_message`. -/
theorem guard_clear (s : GuildSettings) (m : Message)
    (hb : m.authorIsBot = false) (hen : s.enabled = true)
    (hwl : m.authorRoles.any (fun rid => s.whitelist_roles.contains rid) = false)
    (had : m.authorIsAdmin = false) :
    ¬ ((m.authorIsBot || !s.enabled
      || m.authorRoles.any (fun rid => s.whitelist_roles.contains rid)
      || m.authorIsAdmin) = true) := by
  rw [hb, hen, hwl, had]; decide

/-- One `on_message` step with `spam_interval = 0` on an all-empty history:
no velocity incident is possible and every window stays empty. -/
theorem on_message_zero_interval (env : Env) (s : GuildSettings) (m : Message) (h : Hist)
    (hI : s.spam_interval = 0) (hL : (1 : Int) ≤ s.spam_limit) (hh : ∀ g u, h g u = []) :
    (∀ inc, (on_message env s m h).incident = some inc → inc.kind ≠ IncidentKind.velocity) ∧
    (∀ g u, (on_message env s m h).hist g u = []) := by
  cases hOpt : m.guildId with
  | none =>
    rw [on_message_exempt env s m h (by simp [isExempt, hOpt])]
    exact ⟨fun inc hinc => by simp at hinc, hh⟩
  | some g =>
    by_cases hex : (m.authorIsBot || !s.enabled
        || m.authorRoles.any (fun rid => s.whitelist_roles.contains rid)
        || m.authorIsAdmin) = true
    · rw [on_message_exempt env s m h (by simp [isExempt, hOpt]; simp at hex; simpa using hex)]
      exact ⟨fun inc hinc => by simp at hinc, hh⟩
    · by_cases hmc : s.mention_limit ≤ (mention_count m : Int)
      · rw [on_message_mention env s m h g hOpt hex hmc]
        refine ⟨?_, hh⟩
        intro inc hinc
        simp at hinc
        rw [← hinc]
        simp
      · rw [on_message_velocity env s m h g hOpt hex (not_le.mp hmc)]
        rw [hh g m.authorId, hI]
        have hfil : (([] ++ [m.timestamp]) : List Int).filter
            (fun t => m.timestamp - (0 : Int) < t) = [] := by simp
        rw [hfil]
        have hneg : ¬ s.spam_limit ≤ ((([] : List Int)).length : Int) := by
          simp
          omega
        rw [if_neg hneg]
        refine ⟨fun inc hinc => by simp at hinc, ?_⟩
        intro g' u'
        simp [update, hh]

/-- A whole run with `spam_interval = 0` from an all-empty history: no
velocity incident ever fires and every window is empty after every step. -/
theorem run_zero_interval (env : Env) (s : GuildSettings)
    (hI : s.spam_interval = 0) (hL : (1 : Int) ≤ s.spam_limit)
    (msgs : List Message) (h : Hist) (hh : ∀ g u, h g u = []) :
    (∀ inc ∈ (run env s msgs h).1, inc.kind ≠ IncidentKind.velocity) ∧
    (∀ g u, (run env s msgs h).2 g u = []) := by
  induction msgs generalizing h with
  | nil => exact ⟨by simp [run], hh⟩
  | cons m rest ih =>
    obtain ⟨h1, h2⟩ := on_message_zero_interval env s m h hI hL hh
    obtain ⟨ih1, ih2⟩ := ih (on_message env s m h).hist h2
    refine ⟨?_, ?_⟩
    · intro inc hinc
      simp only [run] at hinc
      rcases List.mem_append.mp hinc with hmem | hmem
      · cases hopt : (on_message env s m h).incident with
        | none => rw [hopt] at hmem; simp at hmem
        | some i =>
          rw [hopt] at hmem
          simp at hmem
          rw [hmem]
          exact h1 i hopt
      · exact ih1 inc hmem
    · intro g u
      simp only [run]
      exact ih2 g u

/- ------------------------------------------------------------------ -/
/- Claim theorems.                                                     -/
/- ------------------------------------------------------------------ -/

/-- Claim C3: whenever the author's top role is at or above the bot's top
role, `_punish_user` returns before performing any side effect: no purge,
no punishment, no alert, no log record, not even a diagnostic. -/
theorem hierarchy_guard_no_side_effects (env : Env) (s : GuildSettings) (m : Message)
    (reason : String) (hh : m.botTopRole ≤ m.authorTopRole) :
    punish_user env s m reason = ([], .hierarchyBlocked) := by
  simp [punish_user, hh]

/-- Witness for C3 at an author whose top role equals the bot's. -/
theorem hierarchy_guard_no_side_effects_witness :
    (mkBossMsg 1 2 0).botTopRole ≤ (mkBossMsg 1 2 0).authorTopRole ∧
    punish_user env0 default_guild (mkBossMsg 1 2 0) "r" = ([], .hierarchyBlocked) :=
  ⟨by decide,
   hierarchy_guard_no_side_effects env0 default_guild (mkBossMsg 1 2 0) "r" (by decide)⟩

/-- Claim C5: a message satisfying any exemption condition (direct message,
bot author, detection disabled, whitelisted role, administrator) is
processed with no incident, no dispatched punishment effects, no outcome,
and the whole history map returned unchanged. -/
theorem exempt_message_no_effect (env : Env) (s : GuildSettings) (m : Message) (h : Hist)
    (hx : isExempt s m = true) :
    on_message env s m h = ⟨none, [], none, h⟩ := by
  unfold isExempt at hx
  cases hOpt : m.guildId with
  | none => simp [on_message, hOpt]
  | some g =>
    rw [hOpt] at hx
    simp at hx
    simp [on_message, hOpt, hx]

/-- Witness for C5 at a bot-authored message. -/
theorem exempt_message_no_effect_witness :
    isExempt default_guild botMsg = true ∧
    on_message env0 default_guild botMsg emptyHist = ⟨none, [], none, emptyHist⟩ :=
  ⟨by decide, exempt_message_no_effect env0 default_guild botMsg emptyHist (by decide)⟩

/-- Claim C2 counterexample: with the author below the bot in the hierarchy
and the purge raising a generic exception, `_punish_user` only prints a
diagnostic and returns — the configured punishment (a timeout, since
`action = "mute"`) is never executed, refuting the claim that a cleanup
failure never prevents the punishment. -/
theorem cleanup_failure_counterexample :
    punish_user envPurgeFail default_guild (mkMsg 1 2 0) velocityReason
      = ([failDiag .otherExc], .errored) ∧
    Effect.timeout default_guild.mute_duration ∉
      (punish_user envPurgeFail default_guild (mkMsg 1 2 0) velocityReason).1 := by
  constructor
  · rfl
  · decide

/-- Claim C2 amended: the purge and the punishment share one try block, so
when the cleanup purge raises (permission-denied or any other error) the
whole response aborts: the matching except clause prints a diagnostic and
returns, executing no punishment, no alert and no log, with the failure
recorded as a return path rather than a propagating exception. -/
theorem cleanup_failure_aborts_response (env : Env) (s : GuildSettings) (m : Message)
    (reason : String) (k : ExcKind)
    (hh : m.authorTopRole < m.botTopRole) (hp : env.purgeExc = some k) :
    punish_user env s m reason = ([failDiag k], failOutcome k) := by
  simp [punish_user, not_le.mpr hh, hp]

/-- Witness for the amended C2. -/
theorem cleanup_failure_aborts_response_witness :
    (mkMsg 1 2 0).authorTopRole < (mkMsg 1 2 0).botTopRole ∧
    envPurgeFail.purgeExc = some .otherExc ∧
    punish_user envPurgeFail default_guild (mkMsg 1 2 0) "r"
      = ([failDiag .otherExc], .errored) :=
  ⟨by decide, rfl,
   cleanup_failure_aborts_response envPurgeFail default_guild (mkMsg 1 2 0) "r"
     .otherExc (by decide) rfl⟩

/-- Claim C8: when the punishment call itself raises — `discord.Forbidden`
or any other exception — after a successful purge, the except clause prints
a local diagnostic and returns: alert and log are both skipped, and the
failure surfaces as the function's return path (`forbidden` / `errored`),
never as an exception escaping event processing. -/
theorem punish_failure_skips_alert_and_log (env : Env) (s : GuildSettings) (m : Message)
    (reason : String) (k : ExcKind)
    (hh : m.authorTopRole < m.botTopRole)
    (hpurge : env.purgeExc = none)
    (hact : s.action = "mute" ∨ s.action = "kick" ∨ s.action = "ban")
    (hfail : env.punishExc = some k) :
    punish_user env s m reason = ([.purge, failDiag k], failOutcome k) := by
  rcases hact with h | h | h <;>
    simp [punish_user, not_le.mpr hh, hpurge, hfail, h]

/-- Witness for C8 with a `Forbidden` punishment failure. -/
theorem punish_failure_skips_alert_and_log_witness :
    (mkMsg 1 2 0).authorTopRole < (mkMsg 1 2 0).botTopRole ∧
    envPunishForbidden.punishExc = some .forbidden ∧
    punish_user envPunishForbidden default_guild (mkMsg 1 2 0) "r"
      = ([.purge, failDiag .forbidden], .forbidden) :=
  ⟨by decide, rfl,
   punish_failure_skips_alert_and_log envPunishForbidden default_guild (mkMsg 1 2 0) "r"
     .forbidden (by decide) rfl (Or.inl rfl) rfl⟩

/-- Claim C4: the mention tally is user mentions plus role mentions plus one
for a broadcast mention; on a non-exempt message at or above the limit a
MassMention incident fires whose reason carries the count, and the entire
history map is returned untouched (the mention check returns before the
velocity code). -/
theorem mass_mention_short_circuit (env : Env) (s : GuildSettings) (m : Message) (h : Hist)
    (g : Nat) (hg : m.guildId = some g)
    (hb : m.authorIsBot = false) (hen : s.enabled = true)
    (hwl : m.authorRoles.any (fun rid => s.whitelist_roles.contains rid) = false)
    (had : m.authorIsAdmin = false)
    (hmc : s.mention_limit ≤ (mention_count m : Int)) :
    mention_count m = m.mentions + m.role_mentions + (if m.mention_everyone then 1 else 0) ∧
    (on_message env s m h).incident = some ⟨.massMention, mentionReason (mention_count m)⟩ ∧
    (on_message env s m h).hist = h := by
  have hcond : ¬ ((m.authorIsBot || !s.enabled
      || m.authorRoles.any (fun rid => s.whitelist_roles.contains rid)
      || m.authorIsAdmin) = true) := by
    rw [hb, hen, hwl, had]; decide
  refine ⟨rfl, ?_, ?_⟩ <;>
    · simp only [on_message, hg]
      rw [if_neg hcond, if_pos hmc]

/-- Witness for C4: five user mentions against the default limit of five. -/
theorem mass_mention_short_circuit_witness :
    sEnabled.mention_limit ≤ (mention_count (mkMentionMsg 1 2 0 5) : Int) ∧
    (on_message env0 sEnabled (mkMentionMsg 1 2 0 5) emptyHist).incident
      = some ⟨.massMention, mentionReason (mention_count (mkMentionMsg 1 2 0 5))⟩ ∧
    (on_message env0 sEnabled (mkMentionMsg 1 2 0 5) emptyHist).hist = emptyHist :=
  ⟨by decide,
   (mass_mention_short_circuit env0 sEnabled (mkMentionMsg 1 2 0 5) emptyHist 1
     rfl rfl rfl rfl rfl (by decide)).2.1,
   (mass_mention_short_circuit env0 sEnabled (mkMentionMsg 1 2 0 5) emptyHist 1
     rfl rfl rfl rfl rfl (by decide)).2.2⟩

/-- Claim C9: with `mention_limit = 0` every non-exempt message fires a
MassMention incident immediately, and with `spam_limit = 0` a non-exempt
message that passes the mention check fires a Velocity incident — even the
very first message of a user, since the post-prune count is always >= 0. -/
theorem zero_limits_trigger_immediately (env : Env) (s : GuildSettings) (m : Message)
    (h : Hist) (g : Nat) (hg : m.guildId = some g)
    (hb : m.authorIsBot = false) (hen : s.enabled = true)
    (hwl : m.authorRoles.any (fun rid => s.whitelist_roles.contains rid) = false)
    (had : m.authorIsAdmin = false) :
    (s.mention_limit = 0 →
      (on_message env s m h).incident
        = some ⟨.massMention, mentionReason (mention_count m)⟩) ∧
    (s.spam_limit = 0 → (mention_count m : Int) < s.mention_limit →
      (on_message env s m h).incident = some ⟨.velocity, velocityReason⟩) := by
  have hcond : ¬ ((m.authorIsBot || !s.enabled
      || m.authorRoles.any (fun rid => s.whitelist_roles.contains rid)
      || m.authorIsAdmin) = true) := by
    rw [hb, hen, hwl, had]; decide
  constructor
  · intro h0
    have hmc : s.mention_limit ≤ (mention_count m : Int) := by
      rw [h0]; exact Int.natCast_nonneg _
    simp only [on_message, hg]
    rw [if_neg hcond, if_pos hmc]
  · intro h0 hmc
    rw [on_message_velocity env s m h g hg hcond hmc, h0,
      if_pos (Int.natCast_nonneg _)]

/-- Witness for C9: a zero mention limit and a zero spam limit each fire on
the very first plain message. -/
theorem zero_limits_trigger_immediately_witness :
    sMention0.mention_limit = 0 ∧ sLimit0.spam_limit = 0 ∧
    (on_message env0 sMention0 (mkMsg 1 2 0) emptyHist).incident
      = some ⟨.massMention, mentionReason 0⟩ ∧
    (on_message env0 sLimit0 (mkMsg 1 2 0) emptyHist).incident
      = some ⟨.velocity, velocityReason⟩ :=
  ⟨rfl, rfl,
   (zero_limits_trigger_immediately env0 sMention0 (mkMsg 1 2 0) emptyHist 1
     rfl rfl rfl rfl rfl).1 rfl,
   (zero_limits_trigger_immediately env0 sLimit0 (mkMsg 1 2 0) emptyHist 1
     rfl rfl rfl rfl rfl).2 rfl (by decide)⟩

/-- Claim C7 counterexample: `antiraid spamlimit -3 -5` and
`antiraid mentionlimit -2` store the negative values unvalidated — the
settings do change, so negative limits are NOT rejected at
configuration-set time. -/
theorem negative_limits_accepted_counterexample :
    (ar_spamlimit default_guild (-3) (-5)).spam_limit = -3 ∧
    (ar_spamlimit default_guild (-3) (-5)).spam_interval = -5 ∧
    (ar_spamlimit default_guild (-3) (-5)).spam_limit ≠ default_guild.spam_limit ∧
    (ar_mentionlimit default_guild (-2)).mention_limit = -2 := by
  decide

/-- Claim C7 amended: only the action command validates its argument at set
time (an action outside mute/kick/ban leaves the settings unchanged); the
spam limit, spam interval and mention limit commands store whatever integer
they are given, negative values included, deferring any consequence to
detection time. -/
theorem config_validation_only_for_action (s : GuildSettings) (v : String) (a b l : Int)
    (hv : ¬ (lower v = "mute" ∨ lower v = "kick" ∨ lower v = "ban")) :
    ar_action s v = s ∧
    (ar_spamlimit s a b).spam_limit = a ∧
    (ar_spamlimit s a b).spam_interval = b ∧
    (ar_mentionlimit s l).mention_limit = l := by
  refine ⟨?_, rfl, rfl, rfl⟩
  unfold ar_action
  rw [if_neg hv]

/-- Witness for the amended C7 at an invalid action string and negative
numeric limits. -/
theorem config_validation_only_for_action_witness :
    ¬ (lower "yeet" = "mute" ∨ lower "yeet" = "kick" ∨ lower "yeet" = "ban") ∧
    (ar_action default_guild "yeet" = default_guild ∧
     (ar_spamlimit default_guild (-3) (-5)).spam_limit = -3 ∧
     (ar_spamlimit default_guild (-3) (-5)).spam_interval = -5 ∧
     (ar_mentionlimit default_guild (-2)).mention_limit = -2) :=
  ⟨by decide,
   config_validation_only_for_action default_guild "yeet" (-3) (-5) (-2) (by decide)⟩

/-- Claim C6 counterexample: user 2 of guild 1 posts a plain message at
t = 0, then a 5-mention message at t = 100; processing of the second event
short-circuits at the mention check, so at the end of that step the window
still holds timestamp 0, which is older than 100 - spam_interval = 95. -/
theorem stale_window_counterexample :
    (run env0 sEnabled [mkMsg 1 2 0, mkMentionMsg 1 2 100 5] emptyHist).2 1 2 = [0] ∧
    (0 : Int) < 100 - sEnabled.spam_interval := by
  decide

/-- Claim C6 amended: at the end of a processing step that reaches the
velocity check (non-exempt message, mention count below the limit), the
window of the processed (guild, user) key holds only timestamps strictly
newer than the event timestamp minus `spam_interval`; steps that return
earlier leave every window untouched, so other keys and short-circuited
steps may retain older entries. -/
theorem window_pruned_on_velocity_path (env : Env) (s : GuildSettings) (m : Message)
    (h : Hist) (g : Nat) (hg : m.guildId = some g)
    (hb : m.authorIsBot = false) (hen : s.enabled = true)
    (hwl : m.authorRoles.any (fun rid => s.whitelist_roles.contains rid) = false)
    (had : m.authorIsAdmin = false)
    (hmc : (mention_count m : Int) < s.mention_limit) :
    ∀ x ∈ (on_message env s m h).hist g m.authorId,
      m.timestamp - s.spam_interval < x := by
  rw [on_message_velocity env s m h g hg (guard_clear s m hb hen hwl had) hmc]
  split
  · simp [update_get]
  · simp only [update_get]
    intro x hx
    exact of_decide_eq_true (List.mem_filter.mp hx).2

/-- Witness for the amended C6: a single message at t = 10 leaves exactly
timestamp 10 in the window, and 10 - spam_interval < 10. -/
theorem window_pruned_on_velocity_path_witness :
    (10 : Int) - sEnabled.spam_interval < 10 :=
  window_pruned_on_velocity_path env0 sEnabled (mkMsg 1 2 10) emptyHist 1
    rfl rfl rfl rfl rfl (by decide) 10 (by decide)

/-- Claim C10: with `spam_interval = 0` the prune cutoff `now - 0` discards
the event's own just-appended timestamp, so from a fresh start every window
is empty after every processing step (the stored count is always 0) and,
for `spam_limit >= 1`, no Velocity incident is ever produced. -/
theorem zero_interval_never_triggers (env : Env) (s : GuildSettings) (msgs : List Message)
    (hI : s.spam_interval = 0) (hL : (1 : Int) ≤ s.spam_limit) :
    (∀ (w : List Int) (t : Int),
        t ∉ (w ++ [t]).filter (fun x => t - s.spam_interval < x)) ∧
    (∀ inc ∈ (run env s msgs emptyHist).1, inc.kind ≠ IncidentKind.velocity) ∧
    (∀ g u, (run env s msgs emptyHist).2 g u = []) := by
  obtain ⟨h1, h2⟩ := run_zero_interval env s hI hL msgs emptyHist (fun g u => rfl)
  refine ⟨?_, h1, h2⟩
  intro w t hmem
  have hpred := (List.mem_filter.mp hmem).2
  rw [hI] at hpred
  simp at hpred

/-- Witness for C10: three rapid messages with a zero interval leave the
window empty and fire nothing. -/
theorem zero_interval_never_triggers_witness :
    sInterval0.spam_interval = 0 ∧ (1 : Int) ≤ sInterval0.spam_limit ∧
    (run env0 sInterval0 [mkMsg 1 2 0, mkMsg 1 2 0, mkMsg 1 2 1] emptyHist).2 1 2 = [] :=
  ⟨rfl, by decide,
   (zero_interval_never_triggers env0 sInterval0 [mkMsg 1 2 0, mkMsg 1 2 0, mkMsg 1 2 1]
     rfl (by decide)).2.2 1 2⟩

/-- Processing an appended message list is processing the two halves in
sequence. -/
theorem run_append (env : Env) (s : GuildSettings) (xs ys : List Message) (h : Hist) :
    run env s (xs ++ ys) h
      = ((run env s xs h).1 ++ (run env s ys (run env s xs h).2).1,
         (run env s ys (run env s xs h).2).2) := by
  induction xs generalizing h with
  | nil => simp [run]
  | cons m rest ih => simp [run, ih]

/-- A run of plain messages from one (guild, user) key whose timestamps all
lie within the interval of everything already in the window, and whose
total count stays below the spam limit, fires nothing and accumulates all
timestamps in the window. -/
theorem run_noTrigger (env : Env) (s : GuildSettings) (g u : Nat)
    (hen : s.enabled = true) (hml : 0 < s.mention_limit)
    (ts : List Int) (h : Hist)
    (hin : ∀ x ∈ h g u ++ ts, ∀ y ∈ ts, y - x < s.spam_interval)
    (hlen : ((h g u).length : Int) + ts.length < s.spam_limit) :
    run env s (ts.map (mkMsg g u)) h = ([], update h g u (h g u ++ ts)) := by
  induction ts generalizing h with
  | nil => simp [run, update_self]
  | cons t rest ih =>
    have hcond := guard_clear s (mkMsg g u t) rfl hen rfl rfl
    have hmc : (mention_count (mkMsg g u t) : Int) < s.mention_limit := by
      have h0 : mention_count (mkMsg g u t) = 0 := rfl
      rw [h0]; exact_mod_cast hml
    have hstep := on_message_velocity env s (mkMsg g u t) h g rfl hcond hmc
    simp only [List.map_cons, run]
    rw [hstep]
    simp only [mkMsg]
    have hmem_t : ∀ x ∈ h g u ++ [t], t - s.spam_interval < x := by
      intro x hx
      have hx' : x ∈ h g u ++ t :: rest := by
        rcases List.mem_append.mp hx with h1 | h1
        · exact List.mem_append.mpr (Or.inl h1)
        · simp at h1
          subst h1
          exact List.mem_append.mpr (Or.inr (List.mem_cons_self _ _))
      have := hin x hx' t (List.mem_cons_self t rest)
      omega
    have hfilter : (h g u ++ [t]).filter (fun x => t - s.spam_interval < x)
        = h g u ++ [t] := by
      rw [List.filter_eq_self]
      intro x hx
      exact decide_eq_true (hmem_t x hx)
    rw [hfilter]
    have hnt : ¬ s.spam_limit ≤ ((h g u ++ [t]).length : Int) := by
      simp only [List.length_append, List.length_singleton]
      simp only [List.length_cons] at hlen
      push_cast at hlen ⊢
      omega
    rw [if_neg hnt]
    have hkey : (update h g u (h g u ++ [t])) g u = h g u ++ [t] := update_get h g u _
    have hin' : ∀ x ∈ (update h g u (h g u ++ [t])) g u ++ rest,
        ∀ y ∈ rest, y - x < s.spam_interval := by
      rw [hkey]
      intro x hx y hy
      refine hin x ?_ y (List.mem_cons_of_mem _ hy)
      rcases List.mem_append.mp hx with h1 | h1
      · rcases List.mem_append.mp h1 with h2 | h2
        · exact List.mem_append.mpr (Or.inl h2)
        · simp at h2
          subst h2
          exact List.mem_append.mpr (Or.inr (List.mem_cons_self _ _))
      · exact List.mem_append.mpr (Or.inr (List.mem_cons_of_mem _ h1))
    have hlen' : (((update h g u (h g u ++ [t])) g u).length : Int) + rest.length
        < s.spam_limit := by
      rw [hkey]
      simp only [List.length_append, List.length_singleton]
      simp only [List.length_cons] at hlen
      push_cast at hlen ⊢
      omega
    have ihh := ih (update h g u (h g u ++ [t])) hin' hlen'
    rw [hkey, update_update, List.append_assoc, List.singleton_append] at ihh
    simp [ihh]

/-- A plain message whose post-prune window count reaches the spam limit:
the step detects a velocity violation, dispatches the punishment, and
resets the key's window to empty. -/
theorem step_trigger (env : Env) (s : GuildSettings) (g u : Nat) (t : Int) (h : Hist)
    (hen : s.enabled = true) (hml : 0 < s.mention_limit)
    (hmem : ∀ x ∈ h g u ++ [t], t - s.spam_interval < x)
    (hL : s.spam_limit ≤ ((h g u).length : Int) + 1) :
    on_message env s (mkMsg g u t) h =
      ⟨some ⟨.velocity, velocityReason⟩,
       (punish_user env s (mkMsg g u t) velocityReason).1,
       some (punish_user env s (mkMsg g u t) velocityReason).2,
       update h g u []⟩ := by
  have hcond := guard_clear s (mkMsg g u t) rfl hen rfl rfl
  have hmc : (mention_count (mkMsg g u t) : Int) < s.mention_limit := by
    have h0 : mention_count (mkMsg g u t) = 0 := rfl
    rw [h0]; exact_mod_cast hml
  rw [on_message_velocity env s (mkMsg g u t) h g rfl hcond hmc]
  simp only [mkMsg]
  have hfilter : (h g u ++ [t]).filter (fun x => t - s.spam_interval < x)
      = h g u ++ [t] := by
    rw [List.filter_eq_self]
    intro x hx
    exact decide_eq_true (hmem x hx)
  rw [hfilter]
  have hpos : s.spam_limit ≤ ((h g u ++ [t]).length : Int) := by
    simp only [List.length_append, List.length_singleton]
    push_cast
    omega
  rw [if_pos hpos, update_update]

/-- Claim C1 counterexample: with `spam_limit = 1` (so N = 2 >= spamLimit),
two messages from the same (guild, user) one second apart — both inside the
5 second interval — produce TWO velocity incidents: the event right after
the reset re-triggers within the same interval, refuting "exactly one". -/
theorem velocity_double_fire_counterexample :
    (run env0 sLimit1 [mkMsg 1 2 0, mkMsg 1 2 1] emptyHist).1
      = [⟨.velocity, velocityReason⟩, ⟨.velocity, velocityReason⟩] ∧
    ¬ ((run env0 sLimit1 [mkMsg 1 2 0, mkMsg 1 2 1] emptyHist).1.length = 1) := by
  refine ⟨rfl, ?_⟩
  decide

/-- Claim C1 amended: for a burst `A ++ t :: B` of plain messages from one
(guild, user) key, pairwise within the configured interval, with
`|A| + 1 = spam_limit` (so the t-event is the one whose post-prune count
first reaches the limit) and `|B| < spam_limit` (the burst length N
satisfies spamLimit <= N < 2*spamLimit): the prefix A fires nothing, the
t-event fires exactly one Velocity incident with the key's window already
reset to empty in the same step, and the remaining B events within the same
interval fire nothing further. -/
theorem velocity_single_trigger (env : Env) (s : GuildSettings) (g u : Nat)
    (A : List Int) (t : Int) (B : List Int)
    (hen : s.enabled = true) (hml : 0 < s.mention_limit)
    (hA : (A.length : Int) + 1 = s.spam_limit)
    (hB : (B.length : Int) < s.spam_limit)
    (hin : ∀ x ∈ A ++ t :: B, ∀ y ∈ A ++ t :: B, x - y < s.spam_interval) :
    run env s (A.map (mkMsg g u)) emptyHist = ([], update emptyHist g u A) ∧
    run env s ((A ++ [t]).map (mkMsg g u)) emptyHist
      = ([⟨.velocity, velocityReason⟩], update emptyHist g u []) ∧
    run env s ((A ++ t :: B).map (mkMsg g u)) emptyHist
      = ([⟨.velocity, velocityReason⟩], update emptyHist g u B) := by
  have memA : ∀ x ∈ A, x ∈ A ++ t :: B := fun x hx => List.mem_append.mpr (Or.inl hx)
  have memT : t ∈ A ++ t :: B :=
    List.mem_append.mpr (Or.inr (List.mem_cons_self _ _))
  have memB : ∀ x ∈ B, x ∈ A ++ t :: B :=
    fun x hx => List.mem_append.mpr (Or.inr (List.mem_cons_of_mem _ hx))
  have p1 : run env s (A.map (mkMsg g u)) emptyHist = ([], update emptyHist g u A) := by
    have hinA : ∀ x ∈ emptyHist g u ++ A, ∀ y ∈ A, y - x < s.spam_interval := by
      intro x hx y hy
      have hx' : x ∈ A := by simpa [emptyHist] using hx
      exact hin y (memA y hy) x (memA x hx')
    have hlenA : ((emptyHist g u).length : Int) + A.length < s.spam_limit := by
      simp only [emptyHist, List.length_nil]
      omega
    have := run_noTrigger env s g u hen hml A emptyHist hinA hlenA
    simpa [emptyHist] using this
  have p2 : run env s ((A ++ [t]).map (mkMsg g u)) emptyHist
      = ([⟨.velocity, velocityReason⟩], update emptyHist g u []) := by
    have hmem2 : ∀ x ∈ (update emptyHist g u A) g u ++ [t],
        t - s.spam_interval < x := by
      rw [update_get]
      intro x hx
      rcases List.mem_append.mp hx with h1 | h1
      · have := hin t memT x (memA x h1)
        omega
      · simp at h1
        have := hin t memT t memT
        omega
    have hL2 : s.spam_limit ≤ (((update emptyHist g u A) g u).length : Int) + 1 := by
      rw [update_get]
      omega
    have hstep := step_trigger env s g u t (update emptyHist g u A) hen hml hmem2 hL2
    rw [List.map_append, run_append, p1]
    simp [run, hstep, update_update]
  have p3 : run env s ((A ++ t :: B).map (mkMsg g u)) emptyHist
      = ([⟨.velocity, velocityReason⟩], update emptyHist g u B) := by
    have hsplit : A ++ t :: B = (A ++ [t]) ++ B := by simp
    have hinB : ∀ x ∈ (update emptyHist g u []) g u ++ B,
        ∀ y ∈ B, y - x < s.spam_interval := by
      rw [update_get]
      intro x hx y hy
      have hx' : x ∈ B := by simpa using hx
      exact hin y (memB y hy) x (memB x hx')
    have hlenB : (((update emptyHist g u []) g u).length : Int) + B.length
        < s.spam_limit := by
      rw [update_get]
      simp only [List.length_nil]
      omega
    have hrest := run_noTrigger env s g u hen hml B (update emptyHist g u []) hinB hlenB
    rw [update_get, update_update, List.nil_append] at hrest
    rw [hsplit, List.map_append, run_append, p2]
    simp [hrest]
  exact ⟨p1, p2, p3⟩

/-- Witness for the amended C1: spam_limit = 2, burst [0, 1, 2] within the
5 second interval — A = [0], trigger at t = 1, B = [2]; exactly one
velocity incident over the whole burst and the window ends as [2]. -/
theorem velocity_single_trigger_witness :
    ((([0] : List Int).length : Int) + 1 = sLimit2.spam_limit) ∧
    ((([2] : List Int).length : Int) < sLimit2.spam_limit) ∧
    run env0 sLimit2 (([0] ++ 1 :: [2] : List Int).map (mkMsg 1 2)) emptyHist
      = ([⟨.velocity, velocityReason⟩], update emptyHist 1 2 [2]) :=
  ⟨by decide, by decide,
   (velocity_single_trigger env0 sLimit2 1 2 [0] 1 [2] rfl (by decide)
     (by decide) (by decide) (by decide)).2.2⟩

end AntiRaid
